import Mathlib

/-!
Verification of the advent-of-code-2024 repository (Rust) against its
natural-language specification.  The Rust sources are shallowly embedded:
machine integers become `Nat`/`Int` (with an explicit `% 2 ^ 64` where u64
wrap-around matters), fallible code returns `Option`/`Except` (a `panic!`
branch is `none`, a returned `Result::Err` is `Except.error`), `&mut`
functions become explicit state passing, and the one unbounded `loop` is
modelled by a fuel-indexed step function.
-/

/-- Decidable equality for `Except`, used to evaluate parser results on
concrete inputs. -/
instance {ε α : Type} [DecidableEq ε] [DecidableEq α] : DecidableEq (Except ε α) :=
  fun a b =>
    match a, b with
    | Except.error e, Except.error f =>
      if h : e = f then Decidable.isTrue (by rw [h])
      else Decidable.isFalse fun hh => h ((Except.error.injEq _ _).mp hh)
    | Except.error _, Except.ok _ => Decidable.isFalse fun hh => Except.noConfusion hh
    | Except.ok _, Except.error _ => Decidable.isFalse fun hh => Except.noConfusion hh
    | Except.ok x, Except.ok y =>
      if h : x = y then Decidable.isTrue (by rw [h])
      else Decidable.isFalse fun hh => h ((Except.ok.injEq _ _).mp hh)

namespace AoC

namespace Util

/-- Embedding of `util::count_digits`:
`int.checked_ilog10().unwrap_or(0) + 1`.  `checked_ilog10` is `None` exactly
for `0` and otherwise the floor base-10 logarithm, i.e. `Nat.log 10`. -/
def count_digits (int : Nat) : Nat :=
  (if int = 0 then 0 else Nat.log 10 int) + 1

/-- Character class used by `parse_decimal`: `one_of("0123456789")`. -/
def isDecimalDigit (c : Char) : Bool :=
  ['0', '1', '2', '3', '4', '5', '6', '7', '8', '9'].contains c

/-- Embedding of nom's `many0(one_of("0123456789"))` as used inside
`recognize(many1(...))`: repeatedly consume digits, returning the consumed
run and the rest of the input. -/
def many0Digits : List Char → List Char × List Char
  | [] => ([], [])
  | c :: cs =>
    if isDecimalDigit c then
      let (tail, rest) := many0Digits cs
      (c :: tail, rest)
    else ([], c :: cs)

/-- Embedding of `str::parse::<T>` on a digit-only string: base-10 value,
most significant digit first (`T` is taken unbounded, as `Nat`). -/
def digitsToNat (s : List Char) : Nat :=
  s.foldl (fun acc c => 10 * acc + (c.toNat - 48)) 0

/-- Embedding of `util::parse_decimal`:
`recognize(many1(one_of("0123456789")))` followed by `parse::<T>` on the
recognized run.  `many1` succeeds only when the first character is accepted;
on success the pair `(rest, value)` mirrors nom's `IResult`. -/
def parse_decimal (input : List Char) : Except Unit (List Char × Nat) :=
  match input with
  | [] => Except.error ()
  | c :: cs =>
    if isDecimalDigit c then
      let (tail, rest) := many0Digits cs
      Except.ok (rest, digitsToNat (c :: tail))
    else Except.error ()

/-- Embedding of `util::Coordinate` (two `isize` fields). -/
structure Coordinate where
  x : Int
  y : Int
deriving DecidableEq, Repr

/-- Embedding of `Coordinate::north`. -/
def Coordinate.north (c : Coordinate) : Coordinate := ⟨c.x, c.y - 1⟩

/-- Embedding of `Coordinate::south`. -/
def Coordinate.south (c : Coordinate) : Coordinate := ⟨c.x, c.y + 1⟩

/-- Embedding of `Coordinate::east`. -/
def Coordinate.east (c : Coordinate) : Coordinate := ⟨c.x + 1, c.y⟩

/-- Embedding of `Coordinate::west`. -/
def Coordinate.west (c : Coordinate) : Coordinate := ⟨c.x - 1, c.y⟩

/-- Embedding of `Coordinate::cardinals`. -/
def Coordinate.cardinals (c : Coordinate) : List Coordinate :=
  [c.north, c.east, c.south, c.west]

/-- Embedding of `impl Add for Coordinate` (componentwise). -/
def Coordinate.add (a b : Coordinate) : Coordinate := ⟨a.x + b.x, a.y + b.y⟩

instance : Add Coordinate := ⟨Coordinate.add⟩

/-- Embedding of `impl Sub for Coordinate` (componentwise). -/
def Coordinate.sub (a b : Coordinate) : Coordinate := ⟨a.x - b.x, a.y - b.y⟩

instance : Sub Coordinate := ⟨Coordinate.sub⟩

/-- Embedding of `util::Matrix<T>`: a `Vec<Vec<T>>`.  `Matrix::new` asserts
that all rows have the first row's length; theorems about shaped access take
that invariant as a hypothesis. -/
abbrev Matrix (α : Type) : Type := List (List α)

/-- Embedding of `Matrix::shape`: `[n_rows, n_cols]` where `n_cols` is the
first row's length (`first().expect(..)` panics on an empty matrix; the
claims are restricted to non-empty matrices, where `headD` agrees). -/
def shape (m : Matrix α) : Nat × Nat :=
  (m.length, (m.headD []).length)

/-- Embedding of `Matrix::get_element`:
`self.get(idx[0]).and_then(|row| row.get(idx[1]))`. -/
def get_element (m : Matrix α) (idx : Nat × Nat) : Option α :=
  (m.get? idx.1).bind fun row => row.get? idx.2

/-- Embedding of `Matrix::set_element`: bounds are checked against `shape`
first, then the entry is written.  The mutation of `self` becomes a returned
updated matrix; `none` is the `None` (no write) branch. -/
def set_element (m : Matrix α) (idx : Nat × Nat) (value : α) : Option (Matrix α) :=
  if idx.1 < (shape m).1 ∧ idx.2 < (shape m).2 then
    some (m.set idx.1 ((m.getD idx.1 []).set idx.2 value))
  else none

/-- Panicking index `self[i][j]` of the Rust source; every use below is
bounds-guarded, so the default value is never produced. -/
def getEl [Inhabited α] (m : Matrix α) (i j : Nat) : α :=
  (m.getD i []).getD j default

/-- Embedding of `Matrix::diagonal`: clockwise index along the left and top
edges, then a walk to the bottom-right collected into a list (the returned
iterator yields exactly this list). -/
def diagonal [Inhabited α] (m : Matrix α) (index : Nat) : Option (List α) :=
  let n_rows := (shape m).1
  let n_cols := (shape m).2
  if index > n_rows + n_cols - 2 then none
  else
    let start : Nat × Nat :=
      if index < n_rows then (n_rows - 1 - index, 0) else (0, index - n_rows + 1)
    some ((((List.range (min n_cols n_rows)).takeWhile
        (fun offset => decide (start.1 + offset < n_rows ∧ start.2 + offset < n_cols))).map
        (fun offset => getEl m (start.1 + offset) (start.2 + offset))))

/-- Embedding of `Matrix::diagonal_iter`:
`(0..(self.shape().iter().sum::<usize>() - 2)).map(|i| self.diagonal(i).unwrap())`,
i.e. the range bound is `n_rows + n_cols - 2` (exclusive).  The `unwrap`
never panics on that range, so `getD []` is never the default. -/
def diagonal_iter [Inhabited α] (m : Matrix α) : List (List α) :=
  (List.range ((shape m).1 + (shape m).2 - 2)).map fun index => (diagonal m index).getD []

/-- Embedding of `Matrix::antidiagonal`: clockwise index along the top and
right edges, then a walk to the top-right. -/
def antidiagonal [Inhabited α] (m : Matrix α) (index : Nat) : Option (List α) :=
  let n_rows := (shape m).1
  let n_cols := (shape m).2
  if index > n_rows + n_cols - 2 then none
  else
    let start : Nat × Nat :=
      if index < n_rows then (index, 0) else (n_rows - 1, index - n_rows + 1)
    some ((((List.range (min n_cols n_rows)).takeWhile
        (fun offset => decide (offset ≤ start.1 ∧ start.2 + offset < n_cols))).map
        (fun offset => getEl m (start.1 - offset) (start.2 + offset))))

/-- Embedding of `Matrix::antidiagonal_iter`: same (buggy-looking) exclusive
range bound `n_rows + n_cols - 2` as `diagonal_iter`. -/
def antidiagonal_iter [Inhabited α] (m : Matrix α) : List (List α) :=
  (List.range ((shape m).1 + (shape m).2 - 2)).map fun index => (antidiagonal m index).getD []

/-- Embedding of `util::hashmap_add_or_default` on the association-list model
of `HashMap<T, usize>`: `entry(key).and_modify(|c| *c += value).or_insert(value)`. -/
def hashmap_add_or_default [DecidableEq T] : List (T × Nat) → T → Nat → List (T × Nat)
  | [], key, value => [(key, value)]
  | (k, v) :: rest, key, value =>
    if k = key then (k, v + value) :: rest
    else (k, v) :: hashmap_add_or_default rest key value

/-- Model of Rust's stable `slice::sort` on `isize` values.  A stable sort by
a total order is uniquely determined, so the (stable) insertion sort is the
same function as Rust's (stable) merge sort. -/
def stableSort (l : List Int) : List Int :=
  List.insertionSort (fun a b => a ≤ b) l

/-- Embedding of `str::lines`: split at `'\n'`, treating `"\r\n"` as a single
terminator, with an optional final terminator. -/
def lines (s : List Char) : List (List Char) :=
  if s = [] then []
  else
    let parts := s.splitOn '\n'
    let init := parts.dropLast.map fun line =>
      if line.getLast? = some '\r' then line.dropLast else line
    match parts.getLast? with
    | some [] => init
    | some last => init ++ [last]
    | none => init

end Util

namespace Day01

/-- Embedding of nom's `space1` (at least one `' '` or `'\t'`). -/
def space1 (s : List Char) : Except Unit (List Char) :=
  if (s.takeWhile fun c => c = ' ' ∨ c = '\t') = [] then Except.error ()
  else Except.ok (s.dropWhile fun c => c = ' ' ∨ c = '\t')

/-- Embedding of day01's per-line parser
`separated_pair(parse_decimal, space1, parse_decimal)` (with `T = isize`;
the parsed digit runs are non-negative, so `Nat` values are cast to `Int`).
Unconsumed trailing input is returned, exactly as nom does. -/
def parse_line (s : List Char) : Except Unit (List Char × (Int × Int)) :=
  match Util.parse_decimal s with
  | Except.error e => Except.error e
  | Except.ok (rest1, left) =>
    match space1 rest1 with
    | Except.error e => Except.error e
    | Except.ok rest2 =>
      match Util.parse_decimal rest2 with
      | Except.error e => Except.error e
      | Except.ok (rest3, right) => Except.ok (rest3, ((left : Int), (right : Int)))

/-- Loop body of `day01::parse_input`: push each line's pair onto the two
vectors; a parse failure is the `.expect(..)` panic, modelled as `none`. -/
def parseLines : List (List Char) → Option (List Int × List Int)
  | [] => some ([], [])
  | line :: rest =>
    match parse_line line with
    | Except.error _ => none
    | Except.ok (_, (left, right)) =>
      match parseLines rest with
      | none => none
      | some (lefts, rights) => some (left :: lefts, right :: rights)

/-- Embedding of `day01::parse_input` over `input.lines()`. -/
def parse_input (input : List Char) : Option (List Int × List Int) :=
  parseLines (Util.lines input)

/-- Embedding of `day01::part_1`.  The Rust function takes
`&mut [Vec<T>; 2]` and sorts both vectors in place, so it is modelled in
state-passing style: the result is the answer paired with the data as left
behind by the call. -/
def part_1 (data : List Int × List Int) : Int × (List Int × List Int) :=
  let left := Util.stableSort data.1
  let right := Util.stableSort data.2
  (((left.zip right).map fun p => ((p.1 - p.2).natAbs : Int)).sum, (left, right))

/-- Inner `while` of `day01::part_2`: advance `i_right` past entries below
`current`, counting the equal ones; stop at the first greater entry or at the
end.  The loop consumes `right` from index `i_right`, so `fuel` is the
remaining length plus one. -/
def innerLoop (right : List Int) (current : Int) :
    Nat → Nat → Int → Nat × Int
  | 0, i_right, n_right => (i_right, n_right)
  | fuel + 1, i_right, n_right =>
    if i_right < right.length then
      let other := right.getD i_right 0
      if other = current then innerLoop right current fuel (i_right + 1) (n_right + 1)
      else if other > current then (i_right, n_right)
      else innerLoop right current fuel (i_right + 1) n_right
    else (i_right, n_right)

/-- Outer `while` of `day01::part_2`, two-pointer scoring.  Every iteration
either advances `i_left` or makes the next iteration advance it (by setting
`current` to the entry at `i_left`), so `2 * left.length + 2` fuel always
suffices; the fuel-exhausted branch is unreachable. -/
def outerLoop (left right : List Int) :
    Nat → Nat → Nat → Int → Int → Int → Int → Int
  | 0, _, _, _, _, _, score => score
  | fuel + 1, i_left, i_right, current, n_left, n_right, score =>
    if i_left < left.length then
      let number := left.getD i_left 0
      if number = current then
        outerLoop left right fuel (i_left + 1) i_right current (n_left + 1) n_right score
      else
        let inner := innerLoop right current (right.length + 1) i_right n_right
        outerLoop left right fuel i_left inner.1 number 0 0
          (score + current * n_left * inner.2)
    else score

/-- Embedding of `day01::part_2` (takes `&mut`, so state-passing): sort both
vectors, push a `0` sentinel onto the left one, run the two-pointer loop,
then pop the sentinel; the final state is returned with the score. -/
def part_2 (data : List Int × List Int) : Int × (List Int × List Int) :=
  let left0 := Util.stableSort data.1
  let right := Util.stableSort data.2
  let left := left0 ++ [0]
  let current := left.headD 0
  let score := outerLoop left right (2 * left.length + 2) 0 0 current 0 0 0
  (score, (left.dropLast, right))

/-- Day 1's embedded six-line example fixture (verbatim, including the stray
backtick of the third line, which the parser leaves unconsumed). -/
def exampleInput : List Char :=
  ("3   4\n4   3\n2   5`\n1   3\n3   9\n3   3").toList

end Day01

namespace Day02

/-- Embedding of `day02::Gradient`. -/
inductive Gradient
  | Ascending
  | Descending
deriving DecidableEq, Repr

/-- Loop tail of nom's `separated_list1(tag(" "), parse_decimal)`: repeatedly
consume one `' '` then one decimal; if either fails, stop without consuming
the separator.  Each round consumes at least two characters, so the input
length is enough fuel. -/
def sepTail : Nat → List Char → List Int → List Int × List Char
  | 0, s, acc => (acc.reverse, s)
  | fuel + 1, s, acc =>
    match s with
    | ' ' :: s1 =>
      match Util.parse_decimal s1 with
      | Except.error _ => (acc.reverse, s)
      | Except.ok (rest, v) => sepTail fuel rest ((v : Int) :: acc)
    | _ => (acc.reverse, s)

/-- Embedding of day02's per-line parser
`separated_list1(tag(" "), parse_decimal)` with `T = isize`. -/
def parse_line (s : List Char) : Except Unit (List Char × List Int) :=
  match Util.parse_decimal s with
  | Except.error e => Except.error e
  | Except.ok (rest, v) =>
    let tail := sepTail s.length rest [(v : Int)]
    Except.ok (tail.2, tail.1)

/-- Loop body of `day02::parse_input`; a failing line is the `.expect(..)`
panic, modelled as `none`. -/
def parseLines : List (List Char) → Option (List (List Int))
  | [] => some []
  | line :: rest =>
    match parse_line line with
    | Except.error _ => none
    | Except.ok (_, vec) =>
      match parseLines rest with
      | none => none
      | some buffer => some (vec :: buffer)

/-- Embedding of `day02::parse_input` over `input.lines()`. -/
def parse_input (input : List Char) : Option (List (List Int)) :=
  parseLines (Util.lines input)

/-- Embedding of `windows(2).map(|w| w[0] - w[1])`. -/
def deltas (data : List Int) : List Int :=
  data.zipWith (fun a b => a - b) data.tail

/-- Loop of `day02::is_ok` over the window deltas, carrying the `gradient`
state; each `is_ok = false; break` becomes returning `false`. -/
def isOkLoop (max_delta : Int) : List Int → Option Gradient → Bool
  | [], _ => true
  | delta :: rest, gradient =>
    if delta = 0 then false
    else
      let gradient_next : Option Gradient :=
        some (if delta > 0 then Gradient.Descending else Gradient.Ascending)
      let gradient := if gradient = none then gradient_next else gradient
      if gradient ≠ gradient_next then false
      else if (delta.natAbs : Int) > max_delta then false
      else isOkLoop max_delta rest gradient

/-- Embedding of `day02::is_ok`. -/
def is_ok (data : List Int) (max_delta : Int) : Bool :=
  isOkLoop max_delta (deltas data) none

/-- Embedding of `day02::part_1` with `MAX_DELTA = 3`: count the safe
reports. -/
def part_1 (data : List (List Int)) : Nat :=
  data.countP fun vec => is_ok vec 3

/-- Embedding of `day02::try_remove`: clone, `Vec::remove(idx)`, re-check.
Every call site passes an in-range index, where `List.eraseIdx` agrees with
`Vec::remove`. -/
def try_remove (vec : List Int) (idx : Nat) (max_delta : Int) : Bool :=
  is_ok (vec.eraseIdx idx) max_delta

/-- The `for i in 1..(vec.len() - 2)` loop of `day02::part_2`, with its two
`score += 1; break` exits returning `true`. -/
def part2Scan (vec : List Int) : List Nat → Bool
  | [] => false
  | i :: rest =>
    let delta1 := vec.getD i 0 - vec.getD (i + 1) 0
    if ¬(1 ≤ (delta1.natAbs : Int) ∧ (delta1.natAbs : Int) ≤ 3)
        ∧ (try_remove vec i 3 = true ∨ try_remove vec (i + 1) 3 = true) then true
    else
      let delta2 := vec.getD (i + 1) 0 - vec.getD (i + 2) 0
      if delta1.sign ≠ delta2.sign
          ∧ (try_remove vec i 3 = true ∨ try_remove vec (i + 1) 3 = true
              ∨ try_remove vec (i + 2) 3 = true) then true
      else part2Scan vec rest

/-- Per-report body of `day02::part_2` (whether the report contributes 1 to
the score): safe as-is, or fixable by removing an end, or fixable inside the
scan loop. -/
def part2Counts (vec : List Int) : Bool :=
  if is_ok vec 3 then true
  else if try_remove vec 0 3 || try_remove vec (vec.length - 1) 3 then true
  else part2Scan vec (List.range' 1 (vec.length - 2 - 1))

/-- Embedding of `day02::part_2` with `MAX_DELTA = 3`. -/
def part_2 (data : List (List Int)) : Nat :=
  data.countP part2Counts

/-- Day 2's embedded six-line example fixture (verbatim). -/
def exampleInput : List Char :=
  ("7 6 4 2 1\n1 2 7 8 9\n9 7 6 2 1\n1 3 2 4 5\n8 6 4 4 1\n1 3 6 7 9").toList

end Day02

namespace Day06

/-- Embedding of `day06::Direction`. -/
inductive Direction
  | North
  | East
  | South
  | West
deriving DecidableEq, Repr

/-- Embedding of `Direction::clockwise`. -/
def Direction.clockwise : Direction → Direction
  | Direction.North => Direction.East
  | Direction.East => Direction.South
  | Direction.South => Direction.West
  | Direction.West => Direction.North

/-- Embedding of `day06::Guard` (`position: [usize; 2]`, `direction`). -/
structure Guard where
  position : Nat × Nat
  direction : Direction
deriving DecidableEq, Repr

/-- Embedding of `Guard::rotate`. -/
def Guard.rotate (g : Guard) : Guard :=
  { g with direction := g.direction.clockwise }

/-- Model of `usize::checked_sub`. -/
def checkedSub (a b : Nat) : Option Nat :=
  if a < b then none else some (a - b)

/-- Model of `usize::checked_add` (64-bit). -/
def checkedAdd (a b : Nat) : Option Nat :=
  if a + b < 2 ^ 64 then some (a + b) else none

/-- Embedding of `Guard::peek`: the candidate destination per direction,
then both coordinates must exist and lie inside `bounds`. -/
def Guard.peek (g : Guard) (bounds : Nat × Nat) : Option (Nat × Nat) :=
  let dest : Option Nat × Option Nat :=
    match g.direction with
    | Direction.North => (checkedSub g.position.1 1, some g.position.2)
    | Direction.East => (some g.position.1, checkedAdd g.position.2 1)
    | Direction.South => (checkedAdd g.position.1 1, some g.position.2)
    | Direction.West => (some g.position.1, checkedSub g.position.2 1)
  match dest with
  | (some r, some c) => if r < bounds.1 ∧ c < bounds.2 then some (r, c) else none
  | _ => none

/-- Row loop of `day06::parse_input`: `'.'` is free, `'#'` occupied, `'^'`
free plus the guard's column (later occurrences overwrite); any other
character is the `unreachable!()` panic, modelled as `none`. -/
def parseRow : List Char → Nat → List Bool → Option Nat → Option (List Bool × Option Nat)
  | [], _, acc, g => some (acc.reverse, g)
  | c :: cs, col, acc, g =>
    if c = '.' then parseRow cs (col + 1) (false :: acc) g
    else if c = '#' then parseRow cs (col + 1) (true :: acc) g
    else if c = '^' then parseRow cs (col + 1) (false :: acc) (some col)
    else none

/-- Line loop of `day06::parse_input`; the guard position of the latest `'^'`
wins, exactly as the repeated assignment in the source. -/
def parseGrid : List (List Char) → Nat → Option (Util.Matrix Bool × Option (Nat × Nat))
  | [], _ => some ([], none)
  | line :: rest, row =>
    match parseRow line 0 [] none with
    | none => none
    | some (vec, gcol) =>
      match parseGrid rest (row + 1) with
      | none => none
      | some (matrix, gpos) =>
        some (vec :: matrix,
          match gpos with
          | some p => some p
          | none => gcol.map fun c => (row, c))

/-- Embedding of `day06::parse_input`: build the grid, keep the last `'^'`
as the guard (default `[0, 0]`, facing north); `Matrix::new` then asserts all
rows have the first row's length (`none` models that panic). -/
def parse_input (input : List Char) : Option (Util.Matrix Bool × Guard) :=
  match parseGrid (Util.lines input) 0 with
  | none => none
  | some (matrix, gpos) =>
    if matrix.all fun row => row.length = (matrix.headD []).length then
      some (matrix, { position := gpos.getD (0, 0), direction := Direction.North })
    else none

/-- The body of the unbounded `loop` in `day06::visits`, run with `fuel`
iterations: `none` means the loop has not returned within `fuel` steps, while
`some visited` is the function's return value.  `visited` is the `HashSet`
as a duplicate-free list. -/
def visitsFuel (matrix : Util.Matrix Bool) :
    Nat → Guard → List (Nat × Nat) → Option (List (Nat × Nat))
  | 0, _, _ => none
  | fuel + 1, guard, visited =>
    match guard.peek (Util.shape matrix) with
    | none => some visited
    | some np =>
      if Util.getEl matrix np.1 np.2 = true then
        visitsFuel matrix fuel guard.rotate visited
      else
        visitsFuel matrix fuel { guard with position := np }
          (if np ∈ visited then visited else np :: visited)

/-- Embedding of `day06::part_1` up to fuel: `visits` starts from
`HashSet::from([guard.position])` and part_1 returns its cardinality.  A
`some` result is the value `part_1` returns after at most `fuel` loop
iterations; `none` means the loop is still running. -/
def part_1Fuel (matrix : Util.Matrix Bool) (guard : Guard) (fuel : Nat) : Option Nat :=
  (visitsFuel matrix fuel guard [guard.position]).map List.length

/-- A parseable day06 input on which the guard is boxed in by four
obstacles. -/
def trappedInput : List Char := (".#.\n#^#\n.#.").toList

/-- The grid parsed from `trappedInput`. -/
def trappedMatrix : Util.Matrix Bool :=
  [[false, true, false], [true, false, true], [false, true, false]]

/-- The guard parsed from `trappedInput`: centre cell, facing north. -/
def trappedGuard : Guard :=
  { position := (1, 1), direction := Direction.North }

end Day06

namespace Day11

/-- Embedding of `day11::Stones<u64>`: the `HashMap<u64, usize>` from stone
value to multiplicity, as an association list. -/
abbrev Stones : Type := List (Nat × Nat)

/-- Embedding of `Stones::count`: the sum of the multiplicities. -/
def count (stones : Stones) : Nat :=
  (stones.map fun kv => kv.2).sum

/-- Per-entry body of `Stones::take_step`: a `0` stone becomes `1`; an
even-digit stone splits at `10 ^ (digits / 2)`; otherwise the stone is
multiplied by `2024` (u64 arithmetic, hence the explicit wrap). -/
def stepEntry (acc : Stones) (kv : Nat × Nat) : Stones :=
  let stone := kv.1
  let cnt := kv.2
  if stone = 0 then Util.hashmap_add_or_default acc 1 cnt
  else
    let digits := Util.count_digits stone
    if digits % 2 = 0 then
      let power := 10 ^ (digits / 2)
      Util.hashmap_add_or_default
        (Util.hashmap_add_or_default acc (stone / power) cnt) (stone % power) cnt
    else Util.hashmap_add_or_default acc (stone * 2024 % 2 ^ 64) cnt

/-- Embedding of `Stones::take_step`: fold the entries into a fresh map. -/
def take_step (stones : Stones) : Stones :=
  stones.foldl stepEntry []

/-- The `for _ in 0..n` loops of day11: apply `take_step` `n` times. -/
def runSteps : Nat → Stones → Stones
  | 0, stones => stones
  | n + 1, stones => runSteps n (take_step stones)

/-- Embedding of `day11::part_1` (the `&mut` receiver becomes 25 applications
of `take_step`, then `count`). -/
def part_1 (stones : Stones) : Nat :=
  count (runSteps 25 stones)

/-- Embedding of `day11::part_2` (75 steps). -/
def part_2 (stones : Stones) : Nat :=
  count (runSteps 75 stones)

/-- Reference semantics of one blink of a single stone, mirroring the three
branches of `stepEntry`; used to relate the map-based implementation to a
per-stone count. -/
def blink (stone : Nat) : List Nat :=
  if stone = 0 then [1]
  else
    let digits := Util.count_digits stone
    if digits % 2 = 0 then
      let power := 10 ^ (digits / 2)
      [stone / power, stone % power]
    else [stone * 2024 % 2 ^ 64]

/-- Number of stones a single stone becomes after `n` blinks. -/
def W : Nat → Nat → Nat
  | 0, _ => 1
  | n + 1, s => ((blink s).map (W n)).sum

/-- Weighted count of a stone map: each entry contributes its multiplicity
times `g` of its stone value. -/
def weightSum (g : Nat → Nat) (stones : Stones) : Nat :=
  (stones.map fun kv => kv.2 * g kv.1).sum

end Day11

namespace Day13

/-- Embedding of `day13::ClawMachine`.  The source stores the parsed `u32`
coordinates converted to `f64`; every `u32` is exactly representable in
`f64`, so the machine is modelled by the exact parsed values. -/
structure ClawMachine where
  button_a : Nat × Nat
  button_b : Nat × Nat
  prize : Nat × Nat
deriving DecidableEq, Repr

/-- Embedding of nom's `tag`. -/
def tagP (t s : List Char) : Except Unit (List Char) :=
  if t.isPrefixOf s then Except.ok (s.drop t.length) else Except.error ()

/-- Embedding of `nom::character::complete::u32`: a non-empty decimal run
whose value fits in a `u32`. -/
def nomU32 (s : List Char) : Except Unit (List Char × Nat) :=
  let run := s.takeWhile Util.isDecimalDigit
  if run = [] then Except.error ()
  else if Util.digitsToNat run < 2 ^ 32 then
    Except.ok (s.dropWhile Util.isDecimalDigit, Util.digitsToNat run)
  else Except.error ()

/-- Embedding of nom's `line_ending` (`"\n"` or `"\r\n"`). -/
def line_ending (s : List Char) : Except Unit (List Char) :=
  match s with
  | '\n' :: rest => Except.ok rest
  | '\r' :: '\n' :: rest => Except.ok rest
  | _ => Except.error ()

/-- Embedding of `day13::parse`: `delimited(tag(name),
separated_pair(preceded(tag(p1), u32), tag(", "), preceded(tag(p2), u32)),
line_ending)`. -/
def parse (input name preceded_1 preceded_2 : List Char) :
    Except Unit (List Char × (Nat × Nat)) :=
  match tagP name input with
  | Except.error e => Except.error e
  | Except.ok s1 =>
    match tagP preceded_1 s1 with
    | Except.error e => Except.error e
    | Except.ok s2 =>
      match nomU32 s2 with
      | Except.error e => Except.error e
      | Except.ok (s3, x) =>
        match tagP (", ").toList s3 with
        | Except.error e => Except.error e
        | Except.ok s4 =>
          match tagP preceded_2 s4 with
          | Except.error e => Except.error e
          | Except.ok s5 =>
            match nomU32 s5 with
            | Except.error e => Except.error e
            | Except.ok (s6, y) =>
              match line_ending s6 with
              | Except.error e => Except.error e
              | Except.ok s7 => Except.ok (s7, (x, y))

/-- Embedding of `day13::parse_button_a`. -/
def parse_button_a (input : List Char) : Except Unit (List Char × (Nat × Nat)) :=
  parse input ("Button A: ").toList ("X+").toList ("Y+").toList

/-- Embedding of `day13::parse_button_b`. -/
def parse_button_b (input : List Char) : Except Unit (List Char × (Nat × Nat)) :=
  parse input ("Button B: ").toList ("X+").toList ("Y+").toList

/-- Embedding of `day13::parse_prize`. -/
def parse_prize (input : List Char) : Except Unit (List Char × (Nat × Nat)) :=
  parse input ("Prize: ").toList ("X=").toList ("Y=").toList

/-- Embedding of `day13::parse_machine`: the three line parsers in
sequence. -/
def parse_machine (input : List Char) : Except Unit (List Char × ClawMachine) :=
  match parse_button_a input with
  | Except.error e => Except.error e
  | Except.ok (s1, a) =>
    match parse_button_b s1 with
    | Except.error e => Except.error e
    | Except.ok (s2, b) =>
      match parse_prize s2 with
      | Except.error e => Except.error e
      | Except.ok (s3, p) =>
        Except.ok (s3, { button_a := a, button_b := b, prize := p })

/-- Loop of nom's `separated_list1(line_ending, parse_machine)` after the
first machine: stop (without consuming the separator) as soon as the
separator or the machine fails.  Each round consumes at least one character,
so the input length is enough fuel. -/
def machinesLoop : Nat → List Char → List ClawMachine → List ClawMachine × List Char
  | 0, s, acc => (acc.reverse, s)
  | fuel + 1, s, acc =>
    match line_ending s with
    | Except.error _ => (acc.reverse, s)
    | Except.ok s1 =>
      match parse_machine s1 with
      | Except.error _ => (acc.reverse, s)
      | Except.ok (s2, m) => machinesLoop fuel s2 (m :: acc)

/-- Embedding of `day13::parse_input`: unlike the panicking days, this
returns a `Result` — `separated_list1(line_ending, parse_machine)` plus
`finish()?` propagates the parse error to the caller as a value, and any
unparsed remainder is discarded (`let (_, machines) = ...`). -/
def parse_input (input : List Char) : Except Unit (List ClawMachine) :=
  match parse_machine input with
  | Except.error e => Except.error e
  | Except.ok (s, m) =>
    Except.ok (machinesLoop s.length s [m]).1

end Day13

/-- The repository's own 3 × 4 test matrix (`util::test::get_matrix`). -/
def M34 : Util.Matrix Nat :=
  [[0, 1, 2, 3], [4, 5, 6, 7], [8, 9, 10, 11]]

end AoC

namespace AoC

/-! Helper lemmas (shared between claims). -/

theorem many0Digits_eq (s : List Char) :
    Util.many0Digits s =
      (s.takeWhile Util.isDecimalDigit, s.dropWhile Util.isDecimalDigit) := by
  induction s with
  | nil => rfl
  | cons c cs ih =>
    by_cases h : Util.isDecimalDigit c
    · simp [Util.many0Digits, h, ih, List.takeWhile_cons, List.dropWhile_cons]
    · simp [Util.many0Digits, h, List.takeWhile_cons, List.dropWhile_cons]

theorem digitsToNat_foldl (l : List Char) (acc : Nat) :
    l.foldl (fun a c => 10 * a + (c.toNat - 48)) acc =
      acc * 10 ^ l.length + Nat.ofDigits 10 ((l.map fun c => c.toNat - 48).reverse) := by
  induction l generalizing acc with
  | nil => simp [Nat.ofDigits_nil]
  | cons c l ih =>
    simp only [List.foldl_cons, ih, List.length_cons, List.map_cons, List.reverse_cons,
      Nat.ofDigits_append, Nat.ofDigits_singleton, List.length_reverse, List.length_map]
    ring

theorem digitsToNat_eq_ofDigits (l : List Char) :
    Util.digitsToNat l = Nat.ofDigits 10 ((l.map fun c => c.toNat - 48).reverse) := by
  simpa using digitsToNat_foldl l 0

end AoC

/-- C6: `parse_decimal` succeeds exactly when the input starts with an ASCII
digit; on success it consumes the maximal leading digit run, returns its
base-10 value, and hands back the rest of the input as remainder; otherwise
it returns a parse error. -/
theorem c6_parse_decimal_spec (s : List Char) :
    (AoC.Util.parse_decimal s = Except.error () ↔
      ∀ c ∈ s.head?, AoC.Util.isDecimalDigit c = false)
  ∧ ((∃ c, s.head? = some c ∧ AoC.Util.isDecimalDigit c = true) →
      AoC.Util.parse_decimal s =
        Except.ok (s.dropWhile AoC.Util.isDecimalDigit,
          Nat.ofDigits 10
            (((s.takeWhile AoC.Util.isDecimalDigit).map fun c => c.toNat - 48).reverse)))
  ∧ s.takeWhile AoC.Util.isDecimalDigit ++ s.dropWhile AoC.Util.isDecimalDigit = s := by
  refine ⟨?_, ?_, List.takeWhile_append_dropWhile _ _⟩
  · cases s with
    | nil => simp [AoC.Util.parse_decimal]
    | cons c cs =>
      by_cases h : AoC.Util.isDecimalDigit c
      · simp [AoC.Util.parse_decimal, h]
      · simp [AoC.Util.parse_decimal, h]
  · rintro ⟨c, hc, hdig⟩
    cases s with
    | nil => simp at hc
    | cons c0 cs =>
      obtain rfl : c0 = c := by simpa using hc
      simp [AoC.Util.parse_decimal, hdig, AoC.many0Digits_eq, List.takeWhile_cons,
        List.dropWhile_cons, AoC.digitsToNat_eq_ofDigits]

/-- C6 witness: `parse_decimal` on `"789 abc"` parses the run `789` and
leaves `" abc"`, as in the repository's own test. -/
theorem c6_witness :
    AoC.Util.isDecimalDigit '7' = true
  ∧ AoC.Util.parse_decimal ("789 abc").toList = Except.ok ((" abc").toList, 789) := by
  refine ⟨by decide, ?_⟩
  have h := (c6_parse_decimal_spec (("789 abc").toList)).2.1 ⟨'7', by decide, by decide⟩
  rw [h]
  exact congrArg Except.ok (by decide)

/-- C7: the cardinal moves of `Coordinate` are componentwise translations by
the four unit offsets, opposite moves cancel, and `Add`/`Sub` act
componentwise. -/
theorem c7_coordinate_cardinals (c d : AoC.Util.Coordinate) :
    c.north = c + ⟨0, -1⟩ ∧ c.south = c + ⟨0, 1⟩
  ∧ c.east = c + ⟨1, 0⟩ ∧ c.west = c + ⟨-1, 0⟩
  ∧ c.north.south = c ∧ c.east.west = c
  ∧ c + d = ⟨c.x + d.x, c.y + d.y⟩ ∧ c - d = ⟨c.x - d.x, c.y - d.y⟩ := by
  have hadd : ∀ a b : AoC.Util.Coordinate, a + b = ⟨a.x + b.x, a.y + b.y⟩ := fun _ _ => rfl
  have hsub : ∀ a b : AoC.Util.Coordinate, a - b = ⟨a.x - b.x, a.y - b.y⟩ := fun _ _ => rfl
  obtain ⟨x, y⟩ := c
  obtain ⟨a, b⟩ := d
  refine ⟨?_, ?_, ?_, ?_, ?_, ?_, hadd _ _, hsub _ _⟩ <;>
    simp [AoC.Util.Coordinate.north, AoC.Util.Coordinate.south, AoC.Util.Coordinate.east,
      AoC.Util.Coordinate.west, hadd, AoC.Util.Coordinate.mk.injEq] <;>
    omega

/-- C10: `count_digits` is the base-10 digit count of a `u64`: it is `1` at
`0` and `⌊log₁₀ n⌋ + 1 = (number of base-10 digits)` for `n ≠ 0` (and, being
a total function, it never panics). -/
theorem c10_count_digits (n : Nat) (h64 : n < 2 ^ 64) :
    AoC.Util.count_digits 0 = 1
  ∧ (n ≠ 0 → AoC.Util.count_digits n = Nat.log 10 n + 1
      ∧ AoC.Util.count_digits n = (Nat.digits 10 n).length) := by
  refine ⟨by simp [AoC.Util.count_digits], fun hn => ?_⟩
  have hlog : AoC.Util.count_digits n = Nat.log 10 n + 1 := by
    simp [AoC.Util.count_digits, hn]
  exact ⟨hlog, by rw [hlog, Nat.digits_len 10 n (by norm_num) hn]⟩

/-- C10 witness: instantiation at `n = 12345`, whose digit count evaluates
to 5. -/
theorem c10_witness :
    ((12345 : Nat) < 2 ^ 64 ∧ (12345 : Nat) ≠ 0)
  ∧ AoC.Util.count_digits 12345 = Nat.log 10 12345 + 1
  ∧ AoC.Util.count_digits 12345 = (Nat.digits 10 12345).length
  ∧ AoC.Util.count_digits 12345 = 5 := by
  have h := (c10_count_digits 12345 (by norm_num)).2 (by norm_num)
  refine ⟨⟨by norm_num, by norm_num⟩, h.1, h.2, ?_⟩
  rw [h.1, @Nat.log_eq_of_pow_le_of_lt_pow 10 4 12345 (by norm_num) (by norm_num)]

/-- C3: the embedded literal example fixtures hold: day 1's six-line example
yields 11 and 31, day 2's six-line example yields 2 and 4. -/
theorem c3_example_fixtures :
    (AoC.Day01.parse_input AoC.Day01.exampleInput).map (fun d => (AoC.Day01.part_1 d).1)
      = some 11
  ∧ (AoC.Day01.parse_input AoC.Day01.exampleInput).map (fun d => (AoC.Day01.part_2 d).1)
      = some 31
  ∧ (AoC.Day02.parse_input AoC.Day02.exampleInput).map AoC.Day02.part_1 = some 2
  ∧ (AoC.Day02.parse_input AoC.Day02.exampleInput).map AoC.Day02.part_2 = some 4 := by
  exact ⟨by decide, by decide, by decide, by decide⟩

/-- C8: evaluation on the repository's own 3 × 4 test matrix.  `diagonal`
and `antidiagonal` accept exactly the indices `0..=(r + c - 2) = 0..=5`, but
`diagonal_iter`/`antidiagonal_iter` iterate `0..(r + c - 2) = 0..5` and so
yield only 5 of the 6 diagonals, silently omitting the last one (`[3]`,
resp. `[11]`): the elements of the omitted diagonal are never covered. -/
theorem c8_diagonal_iter_off_by_one :
    AoC.Util.diagonal_iter AoC.M34 = [[8], [4, 9], [0, 5, 10], [1, 6, 11], [2, 7]]
  ∧ (AoC.Util.diagonal_iter AoC.M34).length = 5
  ∧ AoC.Util.diagonal AoC.M34 5 = some [3]
  ∧ AoC.Util.diagonal AoC.M34 6 = none
  ∧ ¬ 3 ∈ (AoC.Util.diagonal_iter AoC.M34).flatten
  ∧ AoC.Util.antidiagonal_iter AoC.M34 = [[0], [4, 1], [8, 5, 2], [9, 6, 3], [10, 7]]
  ∧ AoC.Util.antidiagonal AoC.M34 5 = some [11]
  ∧ AoC.Util.antidiagonal AoC.M34 6 = none := by
  exact ⟨by decide, by decide, by decide, by decide, by decide, by decide, by decide, by decide⟩

namespace AoC

theorem stableSort_perm (l : List Int) : (Util.stableSort l).Perm l :=
  List.perm_insertionSort _ l

theorem stableSort_sorted (l : List Int) :
    List.Sorted (fun a b : Int => a ≤ b) (Util.stableSort l) :=
  List.sorted_insertionSort _ l

end AoC

/-- C1 counterexample: on day 1's own example data, `part_1` hands back the
two vectors sorted, not equal to the parsed value (`part_1`/`part_2` take
`&mut [Vec<T>; 2]` and sort in place). -/
theorem c1_counterexample :
    AoC.Day01.parse_input AoC.Day01.exampleInput
      = some ([3, 4, 2, 1, 3, 3], [4, 3, 5, 3, 9, 3])
  ∧ (AoC.Day01.part_1 ([3, 4, 2, 1, 3, 3], [4, 3, 5, 3, 9, 3])).2
      ≠ ([3, 4, 2, 1, 3, 3], [4, 3, 5, 3, 9, 3]) := by
  exact ⟨by decide, by decide⟩

/-- C1 (amended): not all day modules take the parsed data by shared
reference; day01's `part_1` and `part_2` take `&mut` and sort both vectors in
place (with `part_2` restoring its temporary sentinel push), so the data left
behind is the sorted permutation of the pre-call value — its multiset of
entries is preserved but the order in general is not. -/
theorem c1_amended_day01_sorts_in_place (d : List Int × List Int) :
    (AoC.Day01.part_1 d).2 = (AoC.Util.stableSort d.1, AoC.Util.stableSort d.2)
  ∧ (AoC.Day01.part_2 d).2 = (AoC.Util.stableSort d.1, AoC.Util.stableSort d.2)
  ∧ ((AoC.Day01.part_1 d).2.1).Perm d.1
  ∧ ((AoC.Day01.part_1 d).2.2).Perm d.2
  ∧ List.Sorted (fun a b : Int => a ≤ b) (AoC.Day01.part_1 d).2.1
  ∧ List.Sorted (fun a b : Int => a ≤ b) (AoC.Day01.part_1 d).2.2 := by
  refine ⟨rfl, ?_, AoC.stableSort_perm _, AoC.stableSort_perm _,
    AoC.stableSort_sorted _, AoC.stableSort_sorted _⟩
  show (_, ((AoC.Util.stableSort d.1 ++ [0]).dropLast, _)).2 = _
  rw [List.dropLast_concat]

namespace AoC

theorem day01_parseLines_none_iff : ∀ ls : List (List Char),
    Day01.parseLines ls = none ↔ ∃ l ∈ ls, Day01.parse_line l = Except.error () := by
  intro ls
  induction ls with
  | nil => simp [Day01.parseLines]
  | cons line rest ih =>
    cases h : Day01.parse_line line with
    | error e =>
      obtain rfl : e = () := rfl
      refine iff_of_true (by simp [Day01.parseLines, h]) ⟨line, List.mem_cons_self _ _, h⟩
    | ok out =>
      obtain ⟨r, left, right⟩ := out
      cases hr : Day01.parseLines rest with
      | none =>
        obtain ⟨l, hl, he⟩ := ih.mp hr
        refine iff_of_true (by simp [Day01.parseLines, h, hr])
          ⟨l, List.mem_cons_of_mem _ hl, he⟩
      | some p =>
        obtain ⟨ls1, rs1⟩ := p
        refine iff_of_false (by simp [Day01.parseLines, h, hr]) ?_
        rintro ⟨l, hl, he⟩
        rcases List.mem_cons.mp hl with hl | hl
        · rw [hl] at he
          rw [h] at he
          exact Except.noConfusion he
        · have hnone : Day01.parseLines rest = none := ih.mpr ⟨l, hl, he⟩
          rw [hnone] at hr
          exact Option.noConfusion hr

end AoC

/-- C2 counterexample: malformed input does not always terminate the
program.  Day01's `parse_input` accepts the line `"1 2x"` — which does not
match the expected `<int> <int>` line format — returning a value and
silently dropping the trailing `"x"`; and day13's `parse_input` returns a
`Result::Err` value to the caller instead of panicking. -/
theorem c2_counterexample :
    AoC.Day01.parse_input ("1 2x").toList = some ([1], [2])
  ∧ AoC.Day13.parse_input ("garbage").toList = Except.error () := by
  exact ⟨by decide, by decide⟩

/-- C2 (amended): a day01-style `parse_input` panics (via `.expect`) exactly
when some line's leading `<int><space><int>` structure fails to parse; text
after that leading structure is silently ignored rather than causing
termination; and days 13–15 do not panic at all but return a `Result` error
value the caller can handle. -/
theorem c2_amended_parse_failure_modes :
    (∀ input, AoC.Day01.parse_input input = none ↔
      ∃ line ∈ AoC.Util.lines input, AoC.Day01.parse_line line = Except.error ())
  ∧ AoC.Day01.parse_input ("abc").toList = none
  ∧ AoC.Day01.parse_input ("1 2x").toList = some ([1], [2])
  ∧ AoC.Day13.parse_input ("garbage").toList = Except.error () := by
  exact ⟨fun input => AoC.day01_parseLines_none_iff (AoC.Util.lines input),
    by decide, by decide, by decide⟩

/-- C2 witness: the amended equivalence instantiated at the malformed input
`"abc"`, whose single line fails the leading parse. -/
theorem c2_amended_witness : AoC.Day01.parse_input ("abc").toList = none :=
  (c2_amended_parse_failure_modes.1 (("abc").toList)).mpr
    ⟨("abc").toList, by decide, by decide⟩

namespace AoC

theorem trapped_visits_diverges : ∀ (fuel : Nat) (d : Day06.Direction)
    (visited : List (Nat × Nat)),
    Day06.visitsFuel Day06.trappedMatrix fuel ⟨(1, 1), d⟩ visited = none := by
  intro fuel
  induction fuel with
  | zero => intro d visited; rfl
  | succ n ih =>
    intro d visited
    cases d with
    | North => exact ih Day06.Direction.East visited
    | East => exact ih Day06.Direction.South visited
    | South => exact ih Day06.Direction.West visited
    | West => exact ih Day06.Direction.North visited

end AoC

/-- C4 counterexample: termination does not hold for every parseable input.
The grid `".#.\n#^#\n.#."` parses, but the `loop` of `day06::visits` (hence
`part_1`) never returns on it: the guard only ever rotates in place. -/
theorem c4_counterexample :
    AoC.Day06.parse_input AoC.Day06.trappedInput
      = some (AoC.Day06.trappedMatrix, AoC.Day06.trappedGuard)
  ∧ AoC.Day06.part_1Fuel AoC.Day06.trappedMatrix AoC.Day06.trappedGuard 100 = none := by
  exact ⟨by decide, by decide⟩

/-- C4 (amended): the computations cited for this claim (day11's and day02's
parts) are total functions of the parsed data, but termination does not hold
for every day module and every parseable input: day06's `part_1` loops
forever — for any amount of fuel — on a grid whose guard is boxed in by four
obstacles. -/
theorem c4_amended_termination :
    (∀ fuel visited,
      AoC.Day06.visitsFuel AoC.Day06.trappedMatrix fuel AoC.Day06.trappedGuard visited = none)
  ∧ (∀ s : AoC.Day11.Stones, ∃ n m, AoC.Day11.part_1 s = n ∧ AoC.Day11.part_2 s = m)
  ∧ (∀ d : List (List Int), ∃ n m, AoC.Day02.part_1 d = n ∧ AoC.Day02.part_2 d = m) := by
  exact ⟨fun fuel visited => AoC.trapped_visits_diverges fuel AoC.Day06.Direction.North visited,
    fun s => ⟨_, _, rfl, rfl⟩, fun d => ⟨_, _, rfl, rfl⟩⟩

namespace AoC

theorem weightSum_nil (g : Nat → Nat) : Day11.weightSum g [] = 0 := rfl

theorem weightSum_cons (g : Nat → Nat) (kv : Nat × Nat) (l : Day11.Stones) :
    Day11.weightSum g (kv :: l) = kv.2 * g kv.1 + Day11.weightSum g l := by
  simp [Day11.weightSum]

theorem weightSum_congr {g₁ g₂ : Nat → Nat} (h : ∀ s, g₁ s = g₂ s) (l : Day11.Stones) :
    Day11.weightSum g₁ l = Day11.weightSum g₂ l := by
  unfold Day11.weightSum
  congr 1
  exact List.map_congr_left fun kv _ => by rw [h]

theorem weightSum_hashmap_add_or_default (g : Nat → Nat) (l : Day11.Stones)
    (k v : Nat) :
    Day11.weightSum g (Util.hashmap_add_or_default l k v)
      = Day11.weightSum g l + v * g k := by
  induction l with
  | nil => simp [Util.hashmap_add_or_default, Day11.weightSum]
  | cons kv rest ih =>
    obtain ⟨a, b⟩ := kv
    by_cases hk : a = k
    · subst hk
      simp only [Util.hashmap_add_or_default, eq_self_iff_true, if_true, weightSum_cons]
      ring
    · simp only [Util.hashmap_add_or_default, if_neg hk, weightSum_cons, ih]
      ring

theorem weightSum_stepEntry (g : Nat → Nat) (acc : Day11.Stones) (kv : Nat × Nat) :
    Day11.weightSum g (Day11.stepEntry acc kv)
      = Day11.weightSum g acc + kv.2 * ((Day11.blink kv.1).map g).sum := by
  obtain ⟨stone, cnt⟩ := kv
  by_cases h0 : stone = 0
  · subst h0
    simp [Day11.stepEntry, Day11.blink, weightSum_hashmap_add_or_default]
  · by_cases heven : Util.count_digits stone % 2 = 0
    · simp only [Day11.stepEntry, Day11.blink, if_neg h0, if_pos heven,
        weightSum_hashmap_add_or_default, List.map_cons, List.map_nil, List.sum_cons,
        List.sum_nil]
      ring
    · simp only [Day11.stepEntry, Day11.blink, if_neg h0, if_neg heven,
        weightSum_hashmap_add_or_default, List.map_cons, List.map_nil, List.sum_cons,
        List.sum_nil]
      ring

theorem weightSum_foldl_stepEntry (g : Nat → Nat) (l : Day11.Stones)
    (acc : Day11.Stones) :
    Day11.weightSum g (l.foldl Day11.stepEntry acc)
      = Day11.weightSum g acc
        + Day11.weightSum (fun s => ((Day11.blink s).map g).sum) l := by
  induction l generalizing acc with
  | nil => simp [weightSum_nil]
  | cons kv l ih =>
    simp only [List.foldl_cons, ih, weightSum_stepEntry, weightSum_cons]
    ring

theorem weightSum_take_step (g : Nat → Nat) (l : Day11.Stones) :
    Day11.weightSum g (Day11.take_step l)
      = Day11.weightSum (fun s => ((Day11.blink s).map g).sum) l := by
  have h := weightSum_foldl_stepEntry g l []
  simpa [Day11.take_step, weightSum_nil] using h

theorem count_eq_weightSum_one (l : Day11.Stones) :
    Day11.count l = Day11.weightSum (fun _ => 1) l := by
  induction l with
  | nil => rfl
  | cons kv t ih => simp [Day11.count, Day11.weightSum, mul_one] at ih ⊢

theorem count_runSteps (n : Nat) : ∀ l : Day11.Stones,
    Day11.count (Day11.runSteps n l) = Day11.weightSum (Day11.W n) l := by
  induction n with
  | zero =>
    intro l
    exact (count_eq_weightSum_one l).trans (weightSum_congr (fun s => rfl) l)
  | succ n ih =>
    intro l
    calc Day11.count (Day11.runSteps (n + 1) l)
        = Day11.count (Day11.runSteps n (Day11.take_step l)) := rfl
      _ = Day11.weightSum (Day11.W n) (Day11.take_step l) := ih _
      _ = Day11.weightSum (fun s => ((Day11.blink s).map (Day11.W n)).sum) l :=
          weightSum_take_step _ _
      _ = Day11.weightSum (Day11.W (n + 1)) l := weightSum_congr (fun s => rfl) l

theorem weightSum_perm (g : Nat → Nat) {l₁ l₂ : Day11.Stones} (h : l₁.Perm l₂) :
    Day11.weightSum g l₁ = Day11.weightSum g l₂ :=
  (h.map _).sum_eq

end AoC

/-- C5: the part functions are deterministic — runs on equal parsed data
return equal answers.  For day01 the data is a pair of vectors and equality
is plain equality; for day11 the parsed data is a hash map, whose equality
is entry-set equality irrespective of ordering, so determinism is stated up
to permutation of the association list modelling the map. -/
theorem c5_deterministic :
    (∀ d₁ d₂ : List Int × List Int, d₁ = d₂ → AoC.Day01.part_1 d₁ = AoC.Day01.part_1 d₂)
  ∧ (∀ s₁ s₂ : AoC.Day11.Stones, s₁.Perm s₂ →
      AoC.Day11.part_1 s₁ = AoC.Day11.part_1 s₂
        ∧ AoC.Day11.part_2 s₁ = AoC.Day11.part_2 s₂) := by
  refine ⟨fun d₁ d₂ h => by rw [h], fun s₁ s₂ h => ⟨?_, ?_⟩⟩
  · rw [AoC.Day11.part_1, AoC.Day11.part_1, AoC.count_runSteps, AoC.count_runSteps,
      AoC.weightSum_perm _ h]
  · rw [AoC.Day11.part_2, AoC.Day11.part_2, AoC.count_runSteps, AoC.count_runSteps,
      AoC.weightSum_perm _ h]

/-- C5 witness: the day11 example stones in either entry order give the same
75-step answer. -/
theorem c5_witness :
    ([((125 : Nat), (1 : Nat)), (17, 1)] : AoC.Day11.Stones).Perm [(17, 1), (125, 1)]
  ∧ AoC.Day11.part_2 [(125, 1), (17, 1)] = AoC.Day11.part_2 [(17, 1), (125, 1)]
  ∧ AoC.Day01.part_1 ([3], [4]) = AoC.Day01.part_1 ([3], [4]) := by
  refine ⟨List.Perm.swap _ _ _, ?_, (c5_deterministic.1 ([3], [4]) ([3], [4]) rfl)⟩
  exact (c5_deterministic.2 _ _ (List.Perm.swap _ _ _)).2

namespace AoC

theorem set_preserves_get? {α : Type} (m : Util.Matrix α) (row : List α) (i i' : Nat)
    (h : i' ≠ i) : (m.set i row).get? i' = m.get? i' := by
  rw [List.get?_eq_getElem?, List.get?_eq_getElem?, List.getElem?_set,
    if_neg fun hh => h hh.symm]

end AoC

/-- C9: element access on a (non-empty, rectangular) matrix is total and
writes are atomic: `get_element [i, j]` is `Some` exactly for in-bounds
indices and `None` otherwise, never panicking; an in-bounds `set_element`
succeeds and changes only entry `[i, j]`; an out-of-bounds `set_element`
returns `None` without touching the matrix (no partial write exists). -/
theorem c9_element_access {α : Type} (m : AoC.Util.Matrix α) (i j : Nat) (v : α)
    (hne : m ≠ []) (hrect : ∀ row ∈ m, row.length = (AoC.Util.shape m).2) :
    ((AoC.Util.get_element m (i, j)).isSome ↔
      i < (AoC.Util.shape m).1 ∧ j < (AoC.Util.shape m).2)
  ∧ ((i < (AoC.Util.shape m).1 ∧ j < (AoC.Util.shape m).2) →
      ∃ m', AoC.Util.set_element m (i, j) v = some m'
        ∧ AoC.Util.get_element m' (i, j) = some v
        ∧ ∀ i' j', ¬(i' = i ∧ j' = j) →
            AoC.Util.get_element m' (i', j') = AoC.Util.get_element m (i', j'))
  ∧ (¬(i < (AoC.Util.shape m).1 ∧ j < (AoC.Util.shape m).2) →
      AoC.Util.set_element m (i, j) v = none) := by
  have hshape1 : (AoC.Util.shape m).1 = m.length := rfl
  refine ⟨⟨?_, ?_⟩, ?_, fun h => by rw [AoC.Util.set_element, if_neg h]⟩
  · intro h
    rw [AoC.Util.get_element] at h
    cases hi : m.get? i with
    | none => rw [hi] at h; simp at h
    | some row =>
      rw [hi] at h
      simp only [Option.some_bind] at h
      rw [List.get?_eq_getElem?] at hi
      have hrow : row ∈ m := List.getElem?_mem hi
      have hi' : i < m.length := (List.getElem?_eq_some.mp hi).1
      obtain ⟨a, ha⟩ := Option.isSome_iff_exists.mp h
      rw [List.get?_eq_getElem?] at ha
      have hj : j < row.length := (List.getElem?_eq_some.mp ha).1
      exact ⟨hi', (hrect row hrow) ▸ hj⟩
  · rintro ⟨hi, hj⟩
    have hi' : i < m.length := hi
    have hlen : (m.get ⟨i, hi'⟩).length = (AoC.Util.shape m).2 :=
      hrect _ (List.get_mem m i hi')
    rw [AoC.Util.get_element]
    have hrowget : m.get? i = some (m.get ⟨i, hi'⟩) := List.get?_eq_get hi'
    rw [hrowget]
    simp only [Option.some_bind, List.get?_eq_getElem?]
    have hj' : j < (m.get ⟨i, hi'⟩).length := by rw [hlen]; exact hj
    rw [List.getElem?_eq_getElem hj']
    rfl
  · rintro ⟨hi, hj⟩
    have hi' : i < m.length := hi
    have hgetD : m.getD i [] = m.get ⟨i, hi'⟩ := by
      rw [List.getD_eq_getElem?_getD, List.getElem?_eq_getElem hi']
      rfl
    have hlenrow : (m.get ⟨i, hi'⟩).length = (AoC.Util.shape m).2 :=
      hrect _ (List.get_mem m i hi')
    have hjrow : j < (m.getD i []).length := by rw [hgetD, hlenrow]; exact hj
    have hsetrow : (m.set i ((m.getD i []).set j v)).get? i
        = some ((m.getD i []).set j v) := by
      rw [List.get?_eq_getElem?]
      exact List.getElem?_set_self hi'
    refine ⟨m.set i ((m.getD i []).set j v), by rw [AoC.Util.set_element, if_pos ⟨hi, hj⟩],
      ?_, ?_⟩
    · rw [AoC.Util.get_element]
      rw [show ((i, j).1 : Nat) = i from rfl, show ((i, j).2 : Nat) = j from rfl]
      rw [hsetrow]
      simp only [Option.some_bind, List.get?_eq_getElem?]
      exact List.getElem?_set_self hjrow
    · intro i' j' hnotboth
      rw [AoC.Util.get_element, AoC.Util.get_element]
      by_cases hii : i' = i
      · subst hii
        have hjj : j' ≠ j := fun hh => hnotboth ⟨rfl, hh⟩
        rw [show ((i', j').1 : Nat) = i' from rfl, show ((i', j').2 : Nat) = j' from rfl]
        rw [hsetrow]
        have hrowget : m.get? i' = some (m.get ⟨i', hi'⟩) := List.get?_eq_get hi'
        rw [hrowget]
        simp only [Option.some_bind, List.get?_eq_getElem?]
        rw [hgetD, List.getElem?_set, if_neg fun hh => hjj hh.symm]
      · rw [show ((i', j').1 : Nat) = i' from rfl]
        rw [AoC.set_preserves_get? m _ i i' hii]

/-- C9 witness: instantiation on the repository's 3 × 4 test matrix at the
in-bounds index `[1, 2]`. -/
theorem c9_witness :
    (AoC.Util.get_element AoC.M34 (1, 2)).isSome
  ∧ (AoC.Util.set_element AoC.M34 (1, 2) 42).isSome := by
  have h := c9_element_access AoC.M34 1 2 42 (by decide) (by decide)
  refine ⟨h.1.mpr ⟨by decide, by decide⟩, ?_⟩
  obtain ⟨m', hm', _, _⟩ := h.2.1 ⟨by decide, by decide⟩
  rw [hm']
  rfl
